import Mathlib

/-!
A shallow embedding of the request binder of go-owl/owl (binder.go, app.go,
request.go) and proofs of the specification's claims about it.

Machine integers are modelled as `Int`/`Nat` with explicit range checks
(Go's `strconv` parses into 64-bit values and `reflect.Value.Overflow*`
checks the destination width).  Byte lengths are `String.utf8ByteSize`,
matching Go's `len` on strings.  Reflection-driven code is modelled by an
explicit field-descriptor list; external parsers (the standard library's
form/multipart/XML parsers) enter the model as already-parsed data, which
is exactly the shape the binder consumes.
-/

namespace Owl

/-- `HTTPError` from request.go: an HTTP status code plus message. -/
structure HTTPError where
  code : Nat
  message : String
deriving DecidableEq

/-- `HTTPError.Error()` from request.go: renders as "http CODE: MESSAGE". -/
def HTTPError.render (e : HTTPError) : String :=
  "http " ++ toString e.code ++ ": " ++ e.message

/-- `maxFieldLength` from binder.go: maximum length of one field value. -/
def maxFieldLength : Nat := 10000

/-- `maxFileSize` from binder.go: 50 << 20 bytes, maximum size per uploaded file. -/
def maxFileSize : Int := 52428800

/-- Go byte length of a string (`len(s)` in Go counts UTF-8 bytes). -/
def goLen (s : String) : Nat := s.utf8ByteSize

/-- The scalar kinds `setField` in binder.go handles (string, int family with a
    bit width, uint family, bool).  Go `int`/`uint` are the 64-bit cases. -/
inductive ScalarType
  | stringT
  | intT (bits : Nat)
  | uintT (bits : Nat)
  | floatT (bits : Nat)
  | boolT
deriving DecidableEq

/-- The data of a `multipart.FileHeader` the binder inspects: name and size. -/
structure FileHeader where
  filename : String
  size : Int
deriving DecidableEq

/-- A scalar Go value stored in a struct field.  A float is kept as the exact
    decimal the parser read, `mant · 10 ^ exp10` (rounding to binary, which
    Go performs on the already-range-checked value, is not observable by any
    of the binder's checks modelled here). -/
inductive ScalarValue
  | vStr (s : String)
  | vInt (n : Int)
  | vUint (n : Nat)
  | vFloat (mant : Int) (exp10 : Int)
  | vBool (b : Bool)
deriving DecidableEq

/-- The possible contents of a destination struct field in this model. -/
inductive GoValue
  | scalar (v : ScalarValue)
  | ptr (p : Option ScalarValue)
  | arr (xs : List ScalarValue)
  | slice (xs : List ScalarValue)
  | file (f : Option FileHeader)
  | files (fs : List FileHeader)
deriving DecidableEq

/-- The reflected type of a destination struct field: scalars, pointers to
    scalars, fixed arrays, slices, `*multipart.FileHeader` and
    `[]*multipart.FileHeader`. -/
inductive FieldType
  | scalar (t : ScalarType)
  | ptr (t : ScalarType)
  | array (t : ScalarType) (n : Nat)
  | slice (t : ScalarType)
  | file
  | files
deriving DecidableEq

/-- Zero value of a scalar type. -/
def zeroScalar : ScalarType → ScalarValue
  | .stringT => .vStr ""
  | .intT _ => .vInt 0
  | .uintT _ => .vUint 0
  | .floatT _ => .vFloat 0 0
  | .boolT => .vBool false

/-- One field of a destination struct: Go name, struct tags, whether
    `reflect.Value.CanSet` holds (exported), its type and current value. -/
structure StructField where
  name : String
  tags : List (String × String)
  settable : Bool
  typ : FieldType
  val : GoValue
deriving DecidableEq

/-- The shape of the `dst interface{}` argument: not a pointer, a pointer to a
    non-struct, or a pointer to a struct with the given fields. -/
inductive Dst
  | notPtr
  | ptrNonStruct
  | ptrStruct (fields : List StructField)
deriving DecidableEq

/-- `url.Values`: a key to multi-value string mapping. -/
abbrev Values := List (String × List String)

/-- Indexing `values[tag]` on a Go map: the value list, `[]` when absent. -/
def lookupVals (vs : Values) (k : String) : List String :=
  (vs.lookup k).getD []

/-- `url.Values.Get`: the first value under the key, `""` when absent/empty. -/
def getValue (vs : Values) (k : String) : String :=
  (lookupVals vs k).headD ""

/-- `reflect.StructTag.Get` on the modelled tag list. -/
def tagGet (tags : List (String × String)) (key : String) : String :=
  (tags.lookup key).getD ""

/-- Split a character list at every occurrence of `sep`. -/
def splitOnCharAux (sep : Char) : List Char → List Char → List (List Char)
  | [], acc => [acc.reverse]
  | c :: cs, acc =>
    if c = sep then acc.reverse :: splitOnCharAux sep cs []
    else splitOnCharAux sep cs (c :: acc)

/-- `strings.Split` with a one-character separator. -/
def splitOnChar (sep : Char) (s : String) : List String :=
  (splitOnCharAux sep s.toList []).map String.mk

/-- `strings.ToLower` on the ASCII range (the tags and field names of the
    claims are ASCII). -/
def lowerChar (c : Char) : Char :=
  if 'A' ≤ c ∧ c ≤ 'Z' then Char.ofNat (c.toNat + 32) else c

/-- ASCII `strings.ToLower`. -/
def lowerGo (s : String) : String :=
  String.mk (s.toList.map lowerChar)

/-- `strings.HasPrefix`, character-wise. -/
def hasPrefixGo (s pre : String) : Bool :=
  pre.toList.isPrefixOf s.toList

/-- `strings.Split(raw, ",")[0]`: the tag text before the first comma. -/
def tagHead (raw : String) : String :=
  (splitOnChar ',' raw).headD ""

/-- `tagName` from binder.go: first usable tag among `keys`, else the
    lowercased field name. -/
def tagName (fname : String) (tags : List (String × String)) : List String → String
  | [] => lowerGo fname
  | k :: rest =>
    let raw := tagGet tags k
    if raw ≠ "" ∧ raw ≠ "-" then
      let nm := tagHead raw
      if nm ≠ "" ∧ nm ≠ "-" then nm else tagName fname tags rest
    else tagName fname tags rest

/-- The tag priority `bindValues` passes to `tagName`. -/
def bindTags : List String := ["form", "query", "json"]

/-- The tag priority `bindFiles` passes to `tagName`. -/
def fileTags : List String := ["form"]

/-- Decimal digits to a number; `none` on any non-digit character. -/
def decDigits (cs : List Char) : Option Nat :=
  cs.foldl
    (fun acc c =>
      match acc with
      | none => none
      | some n => if c.isDigit then some (n * 10 + (c.toNat - 48)) else none)
    (some 0)

/-- `strconv` syntax error text. -/
def syntaxErr (fn s : String) : String :=
  "strconv." ++ fn ++ ": parsing \"" ++ s ++ "\": invalid syntax"

/-- `strconv` range error text. -/
def rangeErr (fn s : String) : String :=
  "strconv." ++ fn ++ ": parsing \"" ++ s ++ "\": value out of range"

/-- `strconv.ParseInt(s, 10, 64)`: optional sign, decimal digits, 64-bit range. -/
def parseIntGo (s : String) : Except String Int :=
  match s.toList with
  | [] => .error (syntaxErr "ParseInt" s)
  | c :: rest =>
    let neg := c = '-'
    let digits := if c = '-' ∨ c = '+' then rest else c :: rest
    if digits.isEmpty then .error (syntaxErr "ParseInt" s)
    else
      match decDigits digits with
      | none => .error (syntaxErr "ParseInt" s)
      | some n =>
        if neg then
          if (n : Int) > 9223372036854775808 then .error (rangeErr "ParseInt" s)
          else .ok (-(n : Int))
        else
          if (n : Int) > 9223372036854775807 then .error (rangeErr "ParseInt" s)
          else .ok (n : Int)

/-- `strconv.ParseUint(s, 10, 64)`: decimal digits only (no sign), 64-bit range. -/
def parseUintGo (s : String) : Except String Nat :=
  if s.toList.isEmpty then .error (syntaxErr "ParseUint" s)
  else
    match decDigits s.toList with
    | none => .error (syntaxErr "ParseUint" s)
    | some n =>
      if n > 18446744073709551615 then .error (rangeErr "ParseUint" s)
      else .ok n

/-- Decimal digits to a number, digits already validated. -/
def digitsToNat (cs : List Char) : Nat :=
  cs.foldl (fun n c => n * 10 + (c.toNat - 48)) 0

/-- Parse a decimal float literal (optional sign, digits with optional
    fraction, optional exponent) into its exact value `mant · 10 ^ exp10`;
    `none` on a syntax error.  Go additionally accepts `Inf`/`NaN` and hex
    float literals, which no claim exercises and which are elided here. -/
def parseDecimal (cs : List Char) : Option (Int × Int) :=
  let sr : Int × List Char :=
    match cs with
    | '-' :: r => (-1, r)
    | '+' :: r => (1, r)
    | r => (1, r)
  let ip := sr.2.takeWhile Char.isDigit
  let r2 := sr.2.dropWhile Char.isDigit
  let fr : List Char × List Char :=
    match r2 with
    | '.' :: r => (r.takeWhile Char.isDigit, r.dropWhile Char.isDigit)
    | r => ([], r)
  if ip.isEmpty && fr.1.isEmpty then none
  else
    let mant : Int := sr.1 * (digitsToNat (ip ++ fr.1) : Int)
    match fr.2 with
    | [] => some (mant, -(fr.1.length : Int))
    | e :: r4 =>
      if e = 'e' ∨ e = 'E' then
        let er : Bool × List Char :=
          match r4 with
          | '-' :: r => (true, r)
          | '+' :: r => (false, r)
          | r => (false, r)
        if er.2.isEmpty || !(er.2.all Char.isDigit) then none
        else
          let ex : Int := if er.1 then -(digitsToNat er.2 : Int) else (digitsToNat er.2 : Int)
          some (mant, ex - (fr.1.length : Int))
      else none

/-- Whether `|mant · 10 ^ exp10| ≤ bound`, by integer cross-multiplication. -/
def decAbsLE (mant exp10 bound : Int) : Bool :=
  if 0 ≤ exp10 then decide (|mant| * 10 ^ exp10.toNat ≤ bound)
  else decide (|mant| ≤ bound * 10 ^ (-exp10).toNat)

/-- `math.MaxFloat64` is the integer `(2^53 - 1) * 2^971`, written as a
    literal so the kernel treats it as one numeral. -/
def maxFloat64Int : Int := 179769313486231570814527423731704356798070567525844996598917476803157260780028538760589558632766878171540458953514382464234321326889464182768467546703537516986049910576551282076245490090389328944075868508455133942304583236903222948165808559332123348274797826204144723168738177180919299881250404026184124858368

/-- `math.MaxFloat32` is the integer `(2^24 - 1) * 2^104`, as a literal. -/
def maxFloat32Int : Int := 340282346638528859811704183484516925440

/-- `strconv.ParseFloat(s, 64)`: parse the decimal, range-error beyond
    `MaxFloat64` (the half-ULP rounding at the exact boundary, and the
    subnormal-underflow range error, are not exercised by any claim and are
    elided). -/
def parseFloatGo (s : String) : Except String (Int × Int) :=
  match parseDecimal s.toList with
  | none => .error (syntaxErr "ParseFloat" s)
  | some me =>
    if decAbsLE me.1 me.2 maxFloat64Int then .ok me
    else .error (rangeErr "ParseFloat" s)

/-- Negation of `reflect.Value.OverflowFloat`: a float32 destination
    overflows beyond `MaxFloat32`; a float64 destination never does (the
    parsed value is already a float64). -/
def floatFits (bits : Nat) (mant exp10 : Int) : Bool :=
  if bits = 32 then decAbsLE mant exp10 maxFloat32Int else true

/-- `strconv.ParseBool`. -/
def parseBoolGo (s : String) : Except String Bool :=
  if s = "1" ∨ s = "t" ∨ s = "T" ∨ s = "true" ∨ s = "TRUE" ∨ s = "True" then .ok true
  else if s = "0" ∨ s = "f" ∨ s = "F" ∨ s = "false" ∨ s = "FALSE" ∨ s = "False" then .ok false
  else .error ("strconv.ParseBool: parsing \"" ++ s ++ "\": invalid syntax")

/-- Negation of `reflect.Value.OverflowInt` for a signed width. -/
def intFits (bits : Nat) (n : Int) : Bool :=
  decide (-(2 ^ (bits - 1) : Int) ≤ n ∧ n ≤ 2 ^ (bits - 1) - 1)

/-- Negation of `reflect.Value.OverflowUint` for an unsigned width. -/
def uintFits (bits : Nat) (n : Nat) : Bool :=
  decide (n < 2 ^ bits)

/-- An error returned by `setField`: either a `strconv` error passed through,
    or an `HTTPError` it constructed (overflow / unsupported kind). -/
inductive SetErr
  | conv (msg : String)
  | http (e : HTTPError)
deriving DecidableEq

/-- `error.Error()` on a `setField` error. -/
def SetErr.render : SetErr → String
  | .conv m => m
  | .http e => e.render

/-- `setField` from binder.go: parse the string per the destination kind,
    check the destination width, store. -/
def setField (t : ScalarType) (value : String) : Except SetErr ScalarValue :=
  match t with
  | .stringT => .ok (.vStr value)
  | .intT bits =>
    match parseIntGo value with
    | .error e => .error (.conv e)
    | .ok n =>
      if intFits bits n then .ok (.vInt n)
      else .error (.http ⟨400, "integer overflow"⟩)
  | .uintT bits =>
    match parseUintGo value with
    | .error e => .error (.conv e)
    | .ok n =>
      if uintFits bits n then .ok (.vUint n)
      else .error (.http ⟨400, "unsigned integer overflow"⟩)
  | .floatT bits =>
    match parseFloatGo value with
    | .error e => .error (.conv e)
    | .ok me =>
      if floatFits bits me.1 me.2 then .ok (.vFloat me.1 me.2)
      else .error (.http ⟨400, "float overflow"⟩)
  | .boolT =>
    match parseBoolGo value with
    | .error e => .error (.conv e)
    | .ok b => .ok (.vBool b)

/-- The `field value too long` error of binder.go. -/
def tooLongErr (fname : String) : HTTPError :=
  ⟨400, "field value too long: " ++ fname⟩

/-- The `invalid value for field` error of binder.go, wrapping a `setField` error. -/
def invalidValueErr (fname : String) (e : SetErr) : HTTPError :=
  ⟨400, "invalid value for field " ++ fname ++ ": " ++ e.render⟩

/-- The slice loop of `bindValues`: length-check then convert each supplied
    value, building the new element list in order. -/
def convertSlice (t : ScalarType) (fname : String) : List String → Except HTTPError (List ScalarValue)
  | [] => .ok []
  | s :: ss =>
    if goLen s > maxFieldLength then .error (tooLongErr fname)
    else
      match setField t s with
      | .error e => .error (invalidValueErr fname e)
      | .ok v =>
        match convertSlice t fname ss with
        | .error e => .error e
        | .ok vs => .ok (v :: vs)

/-- The array loop of `bindValues`: positionally overwrite the first
    `min (array length) (value count)` elements (the fuel argument). -/
def setArrayElems (t : ScalarType) (fname : String) : List ScalarValue → List String → Nat → Except HTTPError (List ScalarValue)
  | cur, _, 0 => .ok cur
  | cur, [], _ => .ok cur
  | [], _, _ => .ok []
  | _ :: cs, s :: ss, Nat.succ k =>
    if goLen s > maxFieldLength then .error (tooLongErr fname)
    else
      match setField t s with
      | .error e => .error (invalidValueErr fname e)
      | .ok v =>
        match setArrayElems t fname cs ss k with
        | .error e => .error e
        | .ok rest => .ok (v :: rest)

/-- Current pointee of a pointer field, zero when the pointer is nil
    (`bindValues` allocates a nil pointer before use). -/
def currentPointee (t : ScalarType) : GoValue → ScalarValue
  | .ptr (some v) => v
  | _ => zeroScalar t

/-- Current contents of an array field. -/
def currentArray (t : ScalarType) (n : Nat) : GoValue → List ScalarValue
  | .arr xs => xs
  | _ => List.replicate n (zeroScalar t)

/-- Current pointee of a `*multipart.FileHeader` field. -/
def currentFile : GoValue → FileHeader
  | .file (some h) => h
  | _ => ⟨"", 0⟩

/-- The per-field body of the `bindValues` loop in binder.go: skip unsettable
    fields, resolve the tag, allocate nil pointers, then dispatch on kind.
    `*multipart.FileHeader` is a pointer to a struct and
    `[]*multipart.FileHeader` a slice of pointers, so when values are supplied
    for them they reach `setField`'s default branch (`unsupported field type`). -/
def bindField (values : Values) (f : StructField) : Except HTTPError StructField :=
  if f.settable = false then .ok f
  else
    let tag := tagName f.name f.tags bindTags
    match f.typ with
    | .ptr t =>
      let cur := currentPointee t f.val
      let valueStr := getValue values tag
      if valueStr = "" then .ok { f with val := .ptr (some cur) }
      else if goLen valueStr > maxFieldLength then .error (tooLongErr f.name)
      else
        match setField t valueStr with
        | .error e => .error (invalidValueErr f.name e)
        | .ok v => .ok { f with val := .ptr (some v) }
    | .file =>
      let cur := currentFile f.val
      let valueStr := getValue values tag
      if valueStr = "" then .ok { f with val := .file (some cur) }
      else if goLen valueStr > maxFieldLength then .error (tooLongErr f.name)
      else .error (invalidValueErr f.name (.http ⟨400, "unsupported field type: struct"⟩))
    | .array t n =>
      match lookupVals values tag with
      | [] => .ok f
      | v :: vs =>
        match setArrayElems t f.name (currentArray t n f.val) (v :: vs) (min n (v :: vs).length) with
        | .error e => .error e
        | .ok xs => .ok { f with val := .arr xs }
    | .slice t =>
      match lookupVals values tag with
      | [] => .ok f
      | v :: vs =>
        match convertSlice t f.name (v :: vs) with
        | .error e => .error e
        | .ok xs => .ok { f with val := .slice xs }
    | .files =>
      match lookupVals values tag with
      | [] => .ok f
      | v :: _ =>
        if goLen v > maxFieldLength then .error (tooLongErr f.name)
        else .error (invalidValueErr f.name (.http ⟨400, "unsupported field type: ptr"⟩))
    | .scalar t =>
      let valueStr := getValue values tag
      if valueStr = "" then .ok f
      else if goLen valueStr > maxFieldLength then .error (tooLongErr f.name)
      else
        match setField t valueStr with
        | .error e => .error (invalidValueErr f.name e)
        | .ok v => .ok { f with val := .scalar v }

/-- The field loop of `bindValues`, in declaration order; the first error
    aborts the call. -/
def bindFieldsList (values : Values) : List StructField → Except HTTPError (List StructField)
  | [] => .ok []
  | f :: fs =>
    match bindField values f with
    | .error e => .error e
    | .ok f' =>
      match bindFieldsList values fs with
      | .error e => .error e
      | .ok fs' => .ok (f' :: fs')

/-- `bindValues` from binder.go: reject destinations that are not pointers to
    structs, then run the field loop. -/
def bindValues (values : Values) (dst : Dst) : Except HTTPError Dst :=
  match dst with
  | .notPtr => .error ⟨400, "dst must be a pointer"⟩
  | .ptrNonStruct => .error ⟨400, "dst must be a pointer to struct"⟩
  | .ptrStruct fields =>
    match bindFieldsList values fields with
    | .error e => .error e
    | .ok fields' => .ok (.ptrStruct fields')

/-- The `MultipartForm.File` map: field name to uploaded file headers. -/
abbrev FileMap := List (String × List FileHeader)

/-- Indexing `files[tag]`, `[]` when absent. -/
def lookupFiles (files : FileMap) (k : String) : List FileHeader :=
  (files.lookup k).getD []

/-- First uploaded header exceeding `maxFileSize`, if any (the order in which
    the size loop of `bindFiles` fails). -/
def findOversize (hs : List FileHeader) : Option FileHeader :=
  hs.find? (fun h => decide (h.size > maxFileSize))

/-- The per-field body of the `bindFiles` loop in binder.go: size-check every
    header under the field's tag, then assign first-or-all depending on the
    field's type; other field types are left untouched. -/
def bindFilesField (files : FileMap) (f : StructField) : Except HTTPError StructField :=
  if f.settable = false then .ok f
  else
    let tag := tagName f.name f.tags fileTags
    match lookupFiles files tag with
    | [] => .ok f
    | h :: t =>
      match findOversize (h :: t) with
      | some bad => .error ⟨400, "file too large: " ++ bad.filename⟩
      | none =>
        match f.typ with
        | .file => .ok { f with val := .file (some h) }
        | .files => .ok { f with val := .files (h :: t) }
        | _ => .ok f

/-- The field loop of `bindFiles`. -/
def bindFilesList (files : FileMap) : List StructField → Except HTTPError (List StructField)
  | [] => .ok []
  | f :: fs =>
    match bindFilesField files f with
    | .error e => .error e
    | .ok f' =>
      match bindFilesList files fs with
      | .error e => .error e
      | .ok fs' => .ok (f' :: fs')

/-- `bindFiles` from binder.go: a destination that is not a pointer to a
    struct is silently accepted (returns nil), otherwise run the loop. -/
def bindFiles (files : FileMap) (dst : Dst) : Except HTTPError Dst :=
  match dst with
  | .ptrStruct fields =>
    match bindFilesList files fields with
    | .error e => .error e
    | .ok fields' => .ok (.ptrStruct fields')
  | d => .ok d

/-- A scalar JSON value. -/
inductive JSONScalar
  | jStr (s : String)
  | jNum (n : Int)
  | jBool (b : Bool)
  | jNull
deriving DecidableEq

/-- The value under one key of a top-level JSON object: a scalar or an array
    of scalars (the shapes the binder's destinations use; nested objects are
    outside the claims). -/
inductive JSONField
  | scalar (v : JSONScalar)
  | arr (xs : List JSONScalar)
deriving DecidableEq

/-- One top-level JSON value of the body stream: an object, or some other
    value (which cannot unmarshal into a struct). -/
inductive JSONTop
  | obj (kvs : List (String × JSONField))
  | other
deriving DecidableEq

/-- The source key `encoding/json` uses for a field: the `json` tag's name
    part when present, else the Go field name. -/
def jsonFieldName (f : StructField) : String :=
  let raw := tagGet f.tags "json"
  if raw ≠ "" ∧ raw ≠ "-" then
    let nm := tagHead raw
    if nm ≠ "" then nm else f.name
  else f.name

/-- Whether `encoding/json` delivers object key `k` to field `f`: exported,
    not tagged `-`, and the key matches exactly or case-insensitively. -/
def jsonMatch (f : StructField) (k : String) : Bool :=
  f.settable && decide (tagGet f.tags "json" ≠ "-")
    && (jsonFieldName f == k || lowerGo (jsonFieldName f) == lowerGo k)

/-- Decode one scalar JSON value into a destination scalar; `null` keeps the
    current value (a no-op in `encoding/json`). -/
def scalarFromJSON (t : ScalarType) (cur : ScalarValue) : JSONScalar → Except String ScalarValue
  | .jNull => .ok cur
  | .jStr s =>
    match t with
    | .stringT => .ok (.vStr s)
    | _ => .error "json: cannot unmarshal string into Go value"
  | .jNum n =>
    match t with
    | .intT bits =>
      if intFits bits n then .ok (.vInt n)
      else .error "json: cannot unmarshal number into Go value: overflows destination"
    | .uintT bits =>
      if 0 ≤ n then
        if uintFits bits n.toNat then .ok (.vUint n.toNat)
        else .error "json: cannot unmarshal number into Go value: overflows destination"
      else .error "json: cannot unmarshal number into Go value: overflows destination"
    | .floatT bits =>
      if floatFits bits n 0 then .ok (.vFloat n 0)
      else .error "json: cannot unmarshal number into Go value: overflows destination"
    | _ => .error "json: cannot unmarshal number into Go value"
  | .jBool b =>
    match t with
    | .boolT => .ok (.vBool b)
    | _ => .error "json: cannot unmarshal bool into Go value"

/-- Decode a JSON array elementwise. -/
def listFromJSON (t : ScalarType) : List JSONScalar → Except String (List ScalarValue)
  | [] => .ok []
  | x :: xs =>
    match scalarFromJSON t (zeroScalar t) x with
    | .error e => .error e
    | .ok v =>
      match listFromJSON t xs with
      | .error e => .error e
      | .ok vs => .ok (v :: vs)

/-- Deliver one JSON object entry to a matched field, per `encoding/json`:
    scalars into scalar fields, `null` into a pointer makes it nil, arrays
    into slice/array fields (arrays truncate and zero-fill). -/
def setFromJSON (f : StructField) (v : JSONField) : Except String StructField :=
  match f.typ with
  | .scalar t =>
    match v with
    | .scalar s =>
      match scalarFromJSON t (match f.val with | .scalar c => c | _ => zeroScalar t) s with
      | .error e => .error e
      | .ok sv => .ok { f with val := .scalar sv }
    | .arr _ => .error "json: cannot unmarshal array into Go value"
  | .ptr t =>
    match v with
    | .scalar .jNull => .ok { f with val := .ptr none }
    | .scalar s =>
      match scalarFromJSON t (zeroScalar t) s with
      | .error e => .error e
      | .ok sv => .ok { f with val := .ptr (some sv) }
    | .arr _ => .error "json: cannot unmarshal array into Go value"
  | .slice t =>
    match v with
    | .scalar .jNull => .ok { f with val := .slice [] }
    | .scalar _ => .error "json: cannot unmarshal value into Go slice"
    | .arr xs =>
      match listFromJSON t xs with
      | .error e => .error e
      | .ok vs => .ok { f with val := .slice vs }
  | .array t n =>
    match v with
    | .scalar .jNull => .ok f
    | .scalar _ => .error "json: cannot unmarshal value into Go array"
    | .arr xs =>
      match listFromJSON t (xs.take n) with
      | .error e => .error e
      | .ok vs => .ok { f with val := .arr (vs ++ List.replicate (n - xs.length) (zeroScalar t)) }
  | .file => .error "json: cannot unmarshal value into Go value"
  | .files => .error "json: cannot unmarshal value into Go value"

/-- Deliver object key `k` with value `v` to the first matching field of the
    list; `none` when no field matches (an unknown field). -/
def jsonAssign (k : String) (v : JSONField) : List StructField → Option (Except String (List StructField))
  | [] => none
  | f :: fs =>
    if jsonMatch f k then
      some
        (match setFromJSON f v with
         | .error e => .error e
         | .ok f' => .ok (f' :: fs))
    else
      (jsonAssign k v fs).map
        (fun r =>
          match r with
          | .error e => .error e
          | .ok fs' => .ok (f :: fs'))

/-- The `json: unknown field` error text used by `encoding/json` when
    `DisallowUnknownFields` is set. -/
def unknownFieldErr (k : String) : String :=
  "json: unknown field \"" ++ k ++ "\""

/-- Decode a top-level JSON object into the destination fields, key by key in
    order.  Modelled from the spec: the strict variant rejects keys unknown to
    the destination (the source snapshot's binder.go lacks the `strictJSON`
    field that binder_test.go and app.go use, so the strict behaviour is
    taken from the spec's words and mirrors `DisallowUnknownFields`). -/
def decodeJSONObject (strict : Bool) : List (String × JSONField) → List StructField → Except String (List StructField)
  | [], fields => .ok fields
  | (k, v) :: kvs, fields =>
    match jsonAssign k v fields with
    | none => if strict then .error (unknownFieldErr k) else decodeJSONObject strict kvs fields
    | some (.error e) => .error e
    | some (.ok fields') => decodeJSONObject strict kvs fields'

/-- Decode the body stream into the destination.  Modelled from the spec for
    the strict part: after decoding the first top-level value, strict mode
    rejects trailing bytes (further values) in the stream; non-strict
    decoding reads only the first value, as `json.Decoder.Decode` does. -/
def jsonDecode (strict : Bool) (body : List JSONTop) (dst : Dst) : Except String Dst :=
  match dst with
  | .ptrStruct fields =>
    match body with
    | [] => .error "EOF"
    | .obj kvs :: rest =>
      match decodeJSONObject strict kvs fields with
      | .error e => .error e
      | .ok fields' =>
        if strict && !rest.isEmpty then .error "trailing data after JSON value"
        else .ok (.ptrStruct fields')
    | .other :: _ => .error "json: cannot unmarshal value into Go struct"
  | _ => .error "json: Unmarshal target must be a non-nil pointer"

/-- The parsed multipart form: value map plus file map, as
    `r.MultipartForm` after `ParseMultipartForm`. -/
structure MultipartData where
  value : Values
  file : FileMap
deriving DecidableEq

/-- The request data a `Binder` consumes.  External parsers appear as their
    outcomes: `jsonBody` is the tokenized body (`none` = nil body), `formData`
    and `multipartData` are the parse results, `xmlOutcome` the XML decoder's
    result on the destination (`none` = nil body). -/
structure Binder where
  contentType : String
  rawQuery : String
  jsonBody : Option (List JSONTop)
  xmlOutcome : Option (Except String Dst)
  formData : Except String Values
  multipartData : Except String MultipartData
  strictJSON : Bool

/-- `Binder.JSON` from binder.go: empty-body check, decode, wrap decode
    failures as `invalid JSON: ...` with status 400. -/
def Binder.JSON (b : Binder) (dst : Dst) : Except HTTPError Dst :=
  match b.jsonBody with
  | none => .error ⟨400, "request body is empty"⟩
  | some body =>
    match jsonDecode b.strictJSON body dst with
    | .error e => .error ⟨400, "invalid JSON: " ++ e⟩
    | .ok d => .ok d

/-- `Binder.XML` from binder.go: empty-body check, decode, wrap failures as
    `invalid XML: ...`. -/
def Binder.XML (b : Binder) (_dst : Dst) : Except HTTPError Dst :=
  match b.xmlOutcome with
  | none => .error ⟨400, "request body is empty"⟩
  | some (.error e) => .error ⟨400, "invalid XML: " ++ e⟩
  | some (.ok d) => .ok d

/-- Rejoin the remainder of a component split at `=` (the value keeps any
    further `=` characters, as `strings.Cut` does). -/
def intercalateEq : List String → String
  | [] => ""
  | [s] => s
  | s :: rest => s ++ "=" ++ intercalateEq rest

/-- Append one query value, preserving per-key order as `url.Values` does. -/
def addQueryValue (vs : Values) (k v : String) : Values :=
  match vs with
  | [] => [(k, [v])]
  | (k', xs) :: rest =>
    if k' = k then (k', xs ++ [v]) :: rest
    else (k', xs) :: addQueryValue rest k v

/-- `url.ParseQuery` restricted to unescaped input: split on `&`, then each
    component at its first `=` (percent-decoding is elided; the claims use
    unescaped ASCII queries). -/
def parseQuery (s : String) : Values :=
  (splitOnChar '&' s).foldl
    (fun acc comp =>
      if comp = "" then acc
      else
        let parts := splitOnChar '=' comp
        addQueryValue acc (parts.headD "") (intercalateEq parts.tail))
    []

/-- `Binder.Query` from binder.go: bind the parsed query string. -/
def Binder.Query (b : Binder) (dst : Dst) : Except HTTPError Dst :=
  bindValues (parseQuery b.rawQuery) dst

/-- `Binder.Form` from binder.go: `ParseForm` failure wraps as
    `invalid form data: ...`, else bind `PostForm`. -/
def Binder.Form (b : Binder) (dst : Dst) : Except HTTPError Dst :=
  match b.formData with
  | .error e => .error ⟨400, "invalid form data: " ++ e⟩
  | .ok vs => bindValues vs dst

/-- `Binder.MultipartForm` from binder.go: parse (buffered up to `maxMemory`
    bytes, 32 MiB when 0 — buffering is not observable here), bind values,
    then bind files. -/
def Binder.MultipartForm (b : Binder) (dst : Dst) (maxMemory : Int) : Except HTTPError Dst :=
  let _ := if maxMemory = 0 then (33554432 : Int) else maxMemory
  match b.multipartData with
  | .error e => .error ⟨400, "invalid multipart form: " ++ e⟩
  | .ok m =>
    match bindValues m.value dst with
    | .error e => .error e
    | .ok d => bindFiles m.file d

/-- `Binder.Auto` from binder.go: dispatch on the Content-Type header's
    prefix; anything unrecognized is a 415 naming the received type. -/
def Binder.Auto (b : Binder) (dst : Dst) : Except HTTPError Dst :=
  let ct := b.contentType
  if hasPrefixGo ct "application/json" then b.JSON dst
  else if hasPrefixGo ct "application/x-www-form-urlencoded" then b.Form dst
  else if hasPrefixGo ct "multipart/form-data" then b.MultipartForm dst 33554432
  else if hasPrefixGo ct "application/xml" || hasPrefixGo ct "text/xml" then b.XML dst
  else .error ⟨415, "unsupported content type: " ++ b.contentType⟩

/-- The configuration fields of `AppConfig` (app.go) the binder claims use. -/
structure AppConfig where
  bodyLimit : Int
  strictJSON : Bool
deriving DecidableEq

/-- The fields of `App` (app.go) the binder claims use. -/
structure App where
  bodyLimit : Int
  strictJSON : Bool
deriving DecidableEq

/-- `New` from app.go, restricted to the modelled fields: defaults are a
    10 MiB body limit and strict JSON off; a supplied config overrides the
    body limit (0 meaning unlimited, negatives ignored) and always copies
    `StrictJSON`. -/
def newApp (config : List AppConfig) : App :=
  let base : App := { bodyLimit := 10485760, strictJSON := false }
  match config with
  | [] => base
  | cfg :: _ =>
    { bodyLimit :=
        if cfg.bodyLimit > 0 then cfg.bodyLimit
        else if cfg.bodyLimit = 0 then 0
        else base.bodyLimit
      strictJSON := cfg.strictJSON }

/-! ## Helper lemmas about the field loop -/

/-- A settable scalar field with a non-empty, not-too-long first value is set
    through `setField`; conversion failures are wrapped. -/
theorem bindField_scalar_step (values : Values) (f : StructField) (t : ScalarType)
    (s : String) (ss : List String)
    (hsett : f.settable = true) (htyp : f.typ = .scalar t)
    (hlk : lookupVals values (tagName f.name f.tags bindTags) = s :: ss)
    (hne : s ≠ "") (hlen : goLen s ≤ maxFieldLength) :
    bindField values f =
      match setField t s with
      | .ok v => .ok { f with val := .scalar v }
      | .error e => .error (invalidValueErr f.name e) := by
  obtain ⟨name, tags, settable, typ, val⟩ := f
  simp only at hsett htyp hlk ⊢
  subst hsett htyp
  simp only [bindField, Bool.true_eq_false, if_false, getValue, hlk, List.headD_cons,
    if_neg hne, if_neg (by omega : ¬ goLen s > maxFieldLength)]
  cases setField t s <;> rfl

/-- A settable scalar field whose first value exceeds the length ceiling
    yields the too-long error. -/
theorem bindField_scalar_tooLong (values : Values) (f : StructField) (t : ScalarType)
    (s : String) (ss : List String)
    (hsett : f.settable = true) (htyp : f.typ = .scalar t)
    (hlk : lookupVals values (tagName f.name f.tags bindTags) = s :: ss)
    (hlen : goLen s > maxFieldLength) :
    bindField values f = .error (tooLongErr f.name) := by
  obtain ⟨name, tags, settable, typ, val⟩ := f
  simp only at hsett htyp hlk ⊢
  subst hsett htyp
  have hne : s ≠ "" := by
    rintro rfl
    exact absurd hlen (by decide)
  simp only [bindField, Bool.true_eq_false, if_false, getValue, hlk, List.headD_cons,
    if_neg hne, if_pos hlen]

/-- A settable scalar field whose first value is empty is skipped, whatever
    the remaining values are. -/
theorem bindField_scalar_emptyFirst (values : Values) (f : StructField) (t : ScalarType)
    (ss : List String)
    (hsett : f.settable = true) (htyp : f.typ = .scalar t)
    (hlk : lookupVals values (tagName f.name f.tags bindTags) = "" :: ss) :
    bindField values f = .ok f := by
  obtain ⟨name, tags, settable, typ, val⟩ := f
  simp only at hsett htyp hlk ⊢
  subst hsett htyp
  simp [bindField, getValue, hlk]

/-- What the value loop does to a field whose key is absent: nothing, except
    that settable pointer-kinded fields get allocated (made non-nil). -/
def absentFix (f : StructField) : StructField :=
  if f.settable then
    match f.typ with
    | .ptr t => { f with val := .ptr (some (currentPointee t f.val)) }
    | .file => { f with val := .file (some (currentFile f.val)) }
    | _ => f
  else f

/-- A field whose resolved key is absent from the mapping is left alone,
    except that pointer-kinded fields are allocated. -/
theorem bindField_absent (values : Values) (f : StructField)
    (hlk : lookupVals values (tagName f.name f.tags bindTags) = []) :
    bindField values f = .ok (absentFix f) := by
  obtain ⟨name, tags, settable, typ, val⟩ := f
  simp only at hlk ⊢
  cases settable with
  | false => simp [bindField, absentFix]
  | true =>
    cases typ <;>
      simp [bindField, absentFix, getValue, hlk]

/-- The field loop fails with the error of the first failing field, once the
    fields before it succeed. -/
theorem bindFieldsList_append_error (values : Values) (pre post : List StructField)
    (f : StructField) (pre' : List StructField) (e : HTTPError)
    (hpre : bindFieldsList values pre = .ok pre')
    (hf : bindField values f = .error e) :
    bindFieldsList values (pre ++ f :: post) = .error e := by
  induction pre generalizing pre' with
  | nil => simp [bindFieldsList, hf]
  | cons g gs ih =>
    simp only [bindFieldsList] at hpre
    cases hg : bindField values g with
    | error e' => rw [hg] at hpre; exact absurd hpre (by simp)
    | ok g' =>
      rw [hg] at hpre
      cases hgs : bindFieldsList values gs with
      | error e' => rw [hgs] at hpre; exact absurd hpre (by simp)
      | ok gs' =>
        rw [List.cons_append]
        simp only [bindFieldsList, hg]
        rw [ih gs' hgs]

/-- Elementwise success of the slice conversion loop. -/
theorem convertSlice_forall2 (t : ScalarType) (fname : String)
    (vs : List String) (gvs : List ScalarValue)
    (h : List.Forall₂ (fun s g => goLen s ≤ maxFieldLength ∧ setField t s = .ok g) vs gvs) :
    convertSlice t fname vs = .ok gvs := by
  induction vs generalizing gvs with
  | nil => cases h; rfl
  | cons v vs ih =>
    cases h with
    | cons hp htl =>
      simp only [convertSlice, if_neg (Nat.not_lt.mpr hp.1), hp.2, ih _ htl]

/-- The slice conversion loop stops at the first over-long value, once the
    values before it convert. -/
theorem convertSlice_tooLong (t : ScalarType) (fname : String)
    (vs1 vs2 : List String) (s : String)
    (hok : ∀ v ∈ vs1, goLen v ≤ maxFieldLength ∧ ∃ g, setField t v = .ok g)
    (hs : goLen s > maxFieldLength) :
    convertSlice t fname (vs1 ++ s :: vs2) = .error (tooLongErr fname) := by
  induction vs1 with
  | nil => simp [convertSlice, if_pos hs]
  | cons v vs ih =>
    obtain ⟨hlen, g, hg⟩ := hok v (by simp)
    have ihh := ih (fun w hw => hok w (by simp [hw]))
    rw [List.cons_append]
    simp only [convertSlice, if_neg (Nat.not_lt.mpr hlen), hg]
    rw [ihh]

/-- A settable slice field with supplied values runs the conversion loop. -/
theorem bindField_slice_run (values : Values) (f : StructField) (t : ScalarType)
    (v : String) (vs : List String)
    (hsett : f.settable = true) (htyp : f.typ = .slice t)
    (hlk : lookupVals values (tagName f.name f.tags bindTags) = v :: vs) :
    bindField values f =
      match convertSlice t f.name (v :: vs) with
      | .error e => .error e
      | .ok xs => .ok { f with val := .slice xs } := by
  obtain ⟨name, tags, settable, typ, val⟩ := f
  simp only at hsett htyp hlk ⊢
  subst hsett htyp
  simp only [bindField, Bool.true_eq_false, if_false, hlk]

/-- A settable array field with supplied values runs the positional loop. -/
theorem bindField_array_run (values : Values) (f : StructField) (t : ScalarType) (n : Nat)
    (v : String) (vs : List String)
    (hsett : f.settable = true) (htyp : f.typ = .array t n)
    (hlk : lookupVals values (tagName f.name f.tags bindTags) = v :: vs) :
    bindField values f =
      match setArrayElems t f.name (currentArray t n f.val) (v :: vs) (min n (v :: vs).length) with
      | .error e => .error e
      | .ok xs => .ok { f with val := .arr xs } := by
  obtain ⟨name, tags, settable, typ, val⟩ := f
  simp only at hsett htyp hlk ⊢
  subst hsett htyp
  simp only [bindField, Bool.true_eq_false, if_false, hlk]

/-- The positional array loop stops at the first over-long value, once the
    values before it convert, the loop bound reaches it and elements remain. -/
theorem setArrayElems_tooLong (t : ScalarType) (fname : String)
    (cur : List ScalarValue) (vs1 vs2 : List String) (s : String) (k : Nat)
    (hok : ∀ v ∈ vs1, goLen v ≤ maxFieldLength ∧ ∃ g, setField t v = .ok g)
    (hs : goLen s > maxFieldLength)
    (hk : vs1.length < k) (hcur : vs1.length < cur.length) :
    setArrayElems t fname cur (vs1 ++ s :: vs2) k = .error (tooLongErr fname) := by
  induction vs1 generalizing cur k with
  | nil =>
    cases cur with
    | nil => simp at hcur
    | cons c cs =>
      obtain ⟨k', rfl⟩ : ∃ k', k = k' + 1 := ⟨k - 1, by omega⟩
      simp [setArrayElems, if_pos hs]
  | cons v vs ih =>
    obtain ⟨hlen, g, hg⟩ := hok v (by simp)
    cases cur with
    | nil => simp at hcur
    | cons c cs =>
      obtain ⟨k', rfl⟩ : ∃ k', k = k' + 1 := ⟨k - 1, by omega⟩
      have ihh := ih cs k' (fun w hw => hok w (by simp [hw]))
        (by simp at hk; omega) (by simp at hcur; omega)
      rw [List.cons_append]
      simp only [setArrayElems, if_neg (Nat.not_lt.mpr hlen), hg]
      rw [ihh]

/-- A settable file-typed field whose tag has uploads, none oversize, gets the
    first header; a files-typed field gets all of them. -/
theorem bindFilesField_set (files : FileMap) (f : StructField)
    (h : FileHeader) (t : List FileHeader)
    (hsett : f.settable = true)
    (hlk : lookupFiles files (tagName f.name f.tags fileTags) = h :: t)
    (hsz : ∀ g ∈ h :: t, g.size ≤ maxFileSize) :
    bindFilesField files f =
      match f.typ with
      | .file => .ok { f with val := .file (some h) }
      | .files => .ok { f with val := .files (h :: t) }
      | _ => .ok f := by
  have hfind : findOversize (h :: t) = none := by
    simp only [findOversize, List.find?_eq_none]
    intro g hg
    simpa using Int.not_lt.mpr (hsz g hg)
  obtain ⟨name, tags, settable, typ, val⟩ := f
  simp only at hsett hlk ⊢
  subst hsett
  simp only [bindFilesField, Bool.true_eq_false, if_false, hlk, hfind]

/-- The first oversize header is the one `findOversize` reports. -/
theorem find_oversize_first (hs1 : List FileHeader) (h0 : FileHeader) (hs2 : List FileHeader)
    (hsz : ∀ g ∈ hs1, g.size ≤ maxFileSize) (h0sz : h0.size > maxFileSize) :
    findOversize (hs1 ++ h0 :: hs2) = some h0 := by
  induction hs1 with
  | nil =>
    simp only [List.nil_append, findOversize]
    exact List.find?_cons_of_pos _ (by simpa using h0sz)
  | cons g gs ih =>
    have hg : ¬ ((fun h : FileHeader => decide (h.size > maxFileSize)) g = true) := by
      simp [Int.not_lt.mpr (hsz g (by simp))]
    simp only [List.cons_append, findOversize] at ih ⊢
    calc List.find? (fun h : FileHeader => decide (h.size > maxFileSize)) (g :: (gs ++ h0 :: hs2))
        = List.find? (fun h : FileHeader => decide (h.size > maxFileSize)) (gs ++ h0 :: hs2) :=
          List.find?_cons_of_neg _ hg
      _ = some h0 := ih (fun w hw => hsz w (by simp [hw]))

/-- The size loop of `bindFiles` fails at the first oversize header under a
    settable field's tag. -/
theorem bindFilesField_tooLarge (files : FileMap) (f : StructField)
    (hs1 : List FileHeader) (h0 : FileHeader) (hs2 : List FileHeader)
    (hsett : f.settable = true)
    (hlk : lookupFiles files (tagName f.name f.tags fileTags) = hs1 ++ h0 :: hs2)
    (hsz : ∀ g ∈ hs1, g.size ≤ maxFileSize)
    (h0sz : h0.size > maxFileSize) :
    bindFilesField files f = .error ⟨400, "file too large: " ++ h0.filename⟩ := by
  have hfind := find_oversize_first hs1 h0 hs2 hsz h0sz
  obtain ⟨name, tags, settable, typ, val⟩ := f
  simp only at hsett hlk ⊢
  subst hsett
  cases hs1 with
  | nil =>
    simp only [List.nil_append] at hlk hfind
    simp only [bindFilesField, Bool.true_eq_false, if_false, hlk, hfind]
  | cons g gs =>
    simp only [List.cons_append] at hlk hfind
    simp only [bindFilesField, Bool.true_eq_false, if_false, hlk, hfind]

/-- The file loop fails with the error of the first failing field, once the
    fields before it succeed. -/
theorem bindFilesList_append_error (files : FileMap) (pre post : List StructField)
    (f : StructField) (pre' : List StructField) (e : HTTPError)
    (hpre : bindFilesList files pre = .ok pre')
    (hf : bindFilesField files f = .error e) :
    bindFilesList files (pre ++ f :: post) = .error e := by
  induction pre generalizing pre' with
  | nil => simp [bindFilesList, hf]
  | cons g gs ih =>
    simp only [bindFilesList] at hpre
    cases hg : bindFilesField files g with
    | error e' => rw [hg] at hpre; exact absurd hpre (by simp)
    | ok g' =>
      rw [hg] at hpre
      cases hgs : bindFilesList files gs with
      | error e' => rw [hgs] at hpre; exact absurd hpre (by simp)
      | ok gs' =>
        rw [List.cons_append]
        simp only [bindFilesList, hg]
        rw [ih gs' hgs]

/-- Byte length of an ASCII-`a` string of `n` characters. -/
theorem goLen_replicate (n : Nat) : goLen (String.mk (List.replicate n 'a')) = n := by
  induction n with
  | zero => rfl
  | succ k ih =>
    simp only [goLen, String.utf8ByteSize] at ih ⊢
    rw [List.replicate_succ]
    simp only [String.utf8ByteSize.go]
    rw [ih]
    rfl

/-! ## Concrete requests and destinations used by the witnesses -/

/-- A benign request: JSON content type, empty query, empty-object-free body,
    successfully parsed empty form and multipart data, strict mode off. -/
def sampleBinder : Binder :=
  { contentType := "application/json", rawQuery := "", jsonBody := some [],
    xmlOutcome := none, formData := .ok [], multipartData := .ok ⟨[], []⟩,
    strictJSON := false }

/-- `Tags []string` with a `query:"tags"` tag. -/
def sampleTagsField : StructField :=
  { name := "Tags", tags := [("query", "tags")], settable := true,
    typ := .slice .stringT, val := .slice [] }

/-- `Age int8` with a `form:"age"` tag. -/
def sampleAgeField : StructField :=
  { name := "Age", tags := [("form", "age")], settable := true,
    typ := .scalar (.intT 8), val := .scalar (.vInt 0) }

/-- `Flag bool` with a `query:"flag"` tag. -/
def sampleFlagField : StructField :=
  { name := "Flag", tags := [("query", "flag")], settable := true,
    typ := .scalar .boolT, val := .scalar (.vBool false) }

/-- `Name string` with a `form:"name"` tag. -/
def sampleNameField : StructField :=
  { name := "Name", tags := [("form", "name")], settable := true,
    typ := .scalar .stringT, val := .scalar (.vStr "") }

/-- `Avatar *multipart.FileHeader` with a `form:"avatar"` tag. -/
def sampleAvatarField : StructField :=
  { name := "Avatar", tags := [("form", "avatar")], settable := true,
    typ := .file, val := .file none }

/-! ## The claims -/

/-- C9: for every destination that is not a pointer, or is a pointer to a
    non-struct, Bind-as-Query / Bind-as-Form / Bind-as-MultipartForm fail
    fast with a 400 error before touching any field. -/
theorem bind_nonstruct_destinations_fail_fast (b : Binder) (values : Values)
    (m : MultipartData) (mm : Int)
    (hform : b.formData = .ok values) (hmp : b.multipartData = .ok m) :
    b.Query .notPtr = .error ⟨400, "dst must be a pointer"⟩
  ∧ b.Query .ptrNonStruct = .error ⟨400, "dst must be a pointer to struct"⟩
  ∧ b.Form .notPtr = .error ⟨400, "dst must be a pointer"⟩
  ∧ b.Form .ptrNonStruct = .error ⟨400, "dst must be a pointer to struct"⟩
  ∧ b.MultipartForm .notPtr mm = .error ⟨400, "dst must be a pointer"⟩
  ∧ b.MultipartForm .ptrNonStruct mm = .error ⟨400, "dst must be a pointer to struct"⟩ := by
  refine ⟨rfl, rfl, ?_, ?_, ?_, ?_⟩ <;>
    simp [Binder.Form, Binder.MultipartForm, hform, hmp, bindValues]

/-- Witness for C9 at a concrete request. -/
theorem bind_nonstruct_destinations_fail_fast_witness :
    sampleBinder.Query .notPtr = .error ⟨400, "dst must be a pointer"⟩
  ∧ sampleBinder.Query .ptrNonStruct = .error ⟨400, "dst must be a pointer to struct"⟩
  ∧ sampleBinder.Form .notPtr = .error ⟨400, "dst must be a pointer"⟩
  ∧ sampleBinder.Form .ptrNonStruct = .error ⟨400, "dst must be a pointer to struct"⟩
  ∧ sampleBinder.MultipartForm .notPtr 0 = .error ⟨400, "dst must be a pointer"⟩
  ∧ sampleBinder.MultipartForm .ptrNonStruct 0 = .error ⟨400, "dst must be a pointer to struct"⟩ :=
  bind_nonstruct_destinations_fail_fast sampleBinder [] ⟨[], []⟩ 0 rfl rfl

/-- C5: Bind-auto with a JSON content type is exactly Bind-as-JSON on the
    same request; `text/plain`, and any type matching none of the dispatch
    prefixes, fails with a 415 naming the received content type. -/
theorem auto_dispatch_json_and_unsupported :
    (∀ (b : Binder) (dst : Dst), hasPrefixGo b.contentType "application/json" = true →
      b.Auto dst = b.JSON dst)
  ∧ (∀ (b : Binder) (dst : Dst), b.contentType = "text/plain" →
      b.Auto dst = .error ⟨415, "unsupported content type: text/plain"⟩)
  ∧ (∀ (b : Binder) (dst : Dst),
      hasPrefixGo b.contentType "application/json" = false →
      hasPrefixGo b.contentType "application/x-www-form-urlencoded" = false →
      hasPrefixGo b.contentType "multipart/form-data" = false →
      hasPrefixGo b.contentType "application/xml" = false →
      hasPrefixGo b.contentType "text/xml" = false →
      b.Auto dst = .error ⟨415, "unsupported content type: " ++ b.contentType⟩) := by
  refine ⟨fun b dst h => ?_, fun b dst h => ?_, fun b dst h1 h2 h3 h4 h5 => ?_⟩
  · simp [Binder.Auto, h]
  · simp only [Binder.Auto, h]
    rfl
  · simp [Binder.Auto, h1, h2, h3, h4, h5]

/-- Witness for C5 at a concrete request and destination. -/
theorem auto_dispatch_json_and_unsupported_witness :
    sampleBinder.Auto (.ptrStruct []) = sampleBinder.JSON (.ptrStruct [])
  ∧ ({ sampleBinder with contentType := "text/plain" }).Auto (.ptrStruct [])
      = .error ⟨415, "unsupported content type: text/plain"⟩ :=
  ⟨auto_dispatch_json_and_unsupported.1 sampleBinder (.ptrStruct []) rfl,
   auto_dispatch_json_and_unsupported.2.1 { sampleBinder with contentType := "text/plain" }
     (.ptrStruct []) rfl⟩

/-- C8: a scalar field whose key carries several values deterministically
    receives the first supplied value, whatever the later values are. -/
theorem scalar_first_value_wins :
    (∀ (values : Values) (f : StructField) (t : ScalarType) (s1 : String)
        (rest : List String) (gv : ScalarValue),
      f.settable = true → f.typ = .scalar t →
      lookupVals values (tagName f.name f.tags bindTags) = s1 :: rest →
      s1 ≠ "" → goLen s1 ≤ maxFieldLength → setField t s1 = .ok gv →
      bindField values f = .ok { f with val := .scalar gv })
  ∧ Binder.Query { sampleBinder with rawQuery := "name=first&name=second" }
      (.ptrStruct [sampleNameField])
      = .ok (.ptrStruct [{ sampleNameField with val := .scalar (.vStr "first") }]) := by
  refine ⟨fun values f t s1 rest gv hsett htyp hlk hne hlen hset => ?_, by rfl⟩
  rw [bindField_scalar_step values f t s1 rest hsett htyp hlk hne hlen, hset]

/-- Witness for C8: a two-valued key delivers its first value. -/
theorem scalar_first_value_wins_witness :
    bindField [("name", ["first", "second"])] sampleNameField
      = .ok { sampleNameField with val := .scalar (.vStr "first") } :=
  scalar_first_value_wins.1 [("name", ["first", "second"])] sampleNameField
    .stringT "first" ["second"] (.vStr "first") rfl rfl rfl (by decide) (by decide) rfl

/-- C2 fails as stated: a settable pointer field whose key is absent does not
    remain nil — the loop allocates it before checking the key, so an empty
    mapping turns a nil `*string` field into a pointer to `""`. -/
theorem absent_key_pointer_counterexample :
    bindValues []
        (.ptrStruct [{ name := "Nick", tags := [("form", "nick")], settable := true,
                       typ := .ptr .stringT, val := .ptr none }])
      = .ok (.ptrStruct [{ name := "Nick", tags := [("form", "nick")], settable := true,
                           typ := .ptr .stringT, val := .ptr (some (.vStr "")) }])
    ∧ GoValue.ptr (some (.vStr "")) ≠ GoValue.ptr none :=
  ⟨rfl, by decide⟩

/-- The value loop relates input and output fields pointwise; a field whose
    resolved key is absent comes out as `absentFix` of itself, whatever the
    mapping supplies for the other fields. -/
theorem bindFieldsList_forall2_absent (values : Values)
    (fields fields' : List StructField)
    (h : bindFieldsList values fields = .ok fields') :
    List.Forall₂
      (fun f f' => lookupVals values (tagName f.name f.tags bindTags) = [] →
        f' = absentFix f)
      fields fields' := by
  induction fields generalizing fields' with
  | nil =>
    simp only [bindFieldsList] at h
    cases h
    exact .nil
  | cons f fs ih =>
    simp only [bindFieldsList] at h
    cases hf : bindField values f with
    | error e => rw [hf] at h; exact absurd h (by simp)
    | ok f1 =>
      rw [hf] at h
      cases hfs : bindFieldsList values fs with
      | error e => rw [hfs] at h; exact absurd h (by simp)
      | ok fs1 =>
        rw [hfs] at h
        obtain rfl : f1 :: fs1 = fields' := by
          cases h
          rfl
        refine .cons (fun habs => ?_) (ih fs1 hfs)
        have hres := bindField_absent values f habs
        rw [hf] at hres
        exact Except.ok.inj hres

/-- C2 amended: for every value mapping — mixed mappings included — the
    absence of a field's resolved key is not an error: such a field is left
    at its current (zero) value, except that a settable pointer-kinded field
    is allocated, ending as a non-nil pointer to its element's zero value
    (an already-non-nil pointer keeps its pointee); and in any successful
    call each absent-key field of the result is exactly that `absentFix` of
    its input, independently of what the mapping supplies for other fields. -/
theorem absent_keys_leave_zero_values (values : Values)
    (fields fields' : List StructField)
    (h : bindValues values (.ptrStruct fields) = .ok (.ptrStruct fields')) :
    (∀ f : StructField, lookupVals values (tagName f.name f.tags bindTags) = [] →
      bindField values f = .ok (absentFix f))
    ∧ List.Forall₂
        (fun f f' => lookupVals values (tagName f.name f.tags bindTags) = [] →
          f' = absentFix f)
        fields fields' := by
  refine ⟨fun f hf => bindField_absent values f hf, ?_⟩
  simp only [bindValues] at h
  cases hl : bindFieldsList values fields with
  | error e => rw [hl] at h; exact absurd h (by simp)
  | ok fs1 =>
    rw [hl] at h
    obtain rfl : fs1 = fields' := by
      cases h
      rfl
    exact bindFieldsList_forall2_absent values fields fs1 hl

/-- Witness for the amended C2, on the spec scenario of a mixed mapping:
    `?name=Jane` binds the string field, leaves the absent-key `Age` field
    untouched at zero, and allocates the absent-key nil pointer field. -/
theorem absent_keys_leave_zero_values_witness :
    (∀ f : StructField,
      lookupVals [("name", ["Jane"])] (tagName f.name f.tags bindTags) = [] →
      bindField [("name", ["Jane"])] f = .ok (absentFix f))
    ∧ List.Forall₂
        (fun f f' =>
          lookupVals [("name", ["Jane"])] (tagName f.name f.tags bindTags) = [] →
          f' = absentFix f)
        [sampleNameField, sampleAgeField,
         { name := "Nick", tags := [("form", "nick")], settable := true,
           typ := .ptr .stringT, val := .ptr none }]
        [{ sampleNameField with val := .scalar (.vStr "Jane") }, sampleAgeField,
         { name := "Nick", tags := [("form", "nick")], settable := true,
           typ := .ptr .stringT, val := .ptr (some (.vStr "")) }] :=
  absent_keys_leave_zero_values [("name", ["Jane"])]
    [sampleNameField, sampleAgeField,
     { name := "Nick", tags := [("form", "nick")], settable := true,
       typ := .ptr .stringT, val := .ptr none }]
    [{ sampleNameField with val := .scalar (.vStr "Jane") }, sampleAgeField,
     { name := "Nick", tags := [("form", "nick")], settable := true,
       typ := .ptr .stringT, val := .ptr (some (.vStr "")) }]
    rfl

/-- The slice conversion loop on a single empty value: straight to `setField`. -/
theorem convertSlice_single_empty (t : ScalarType) (fname : String) :
    convertSlice t fname [""] =
      match setField t "" with
      | .error e => .error (invalidValueErr fname e)
      | .ok v => .ok [v] := by
  simp only [convertSlice]
  rw [if_neg (by decide)]

/-- The array loop on a single empty value with one slot of budget. -/
theorem setArrayElems_single_empty (t : ScalarType) (fname : String)
    (x : ScalarValue) (xs : List ScalarValue) :
    setArrayElems t fname (x :: xs) [""] 1 =
      match setField t "" with
      | .error e => .error (invalidValueErr fname e)
      | .ok v => .ok (v :: xs) := by
  simp only [setArrayElems]
  rw [if_neg (by decide)]

/-- C10: a scalar field whose key is present with an empty first value is
    treated exactly like an absent key — skipped without error, even when
    later values exist — while empty strings supplied to slice or array
    fields do go through `setField` conversion. -/
theorem empty_first_value_skips_scalar :
    (∀ (values : Values) (f : StructField) (t : ScalarType) (ss : List String),
      f.settable = true → f.typ = .scalar t →
      lookupVals values (tagName f.name f.tags bindTags) = "" :: ss →
      bindField values f = .ok f)
  ∧ (∀ (values : Values) (f : StructField) (t : ScalarType),
      f.settable = true → f.typ = .scalar t →
      lookupVals values (tagName f.name f.tags bindTags) = [] →
      bindField values f = .ok f)
  ∧ (∀ (values : Values) (f : StructField) (t : ScalarType) (g : ScalarValue),
      f.settable = true → f.typ = .slice t →
      lookupVals values (tagName f.name f.tags bindTags) = [""] →
      setField t "" = .ok g →
      bindField values f = .ok { f with val := .slice [g] })
  ∧ (∀ (values : Values) (f : StructField) (t : ScalarType) (e : SetErr),
      f.settable = true → f.typ = .slice t →
      lookupVals values (tagName f.name f.tags bindTags) = [""] →
      setField t "" = .error e →
      bindField values f = .error (invalidValueErr f.name e))
  ∧ (∀ (values : Values) (f : StructField) (t : ScalarType) (n : Nat)
        (x : ScalarValue) (xs : List ScalarValue) (g : ScalarValue),
      f.settable = true → f.typ = .array t n → 0 < n →
      lookupVals values (tagName f.name f.tags bindTags) = [""] →
      f.val = .arr (x :: xs) →
      setField t "" = .ok g →
      bindField values f = .ok { f with val := .arr (g :: xs) })
  ∧ Binder.Query { sampleBinder with rawQuery := "flag=" } (.ptrStruct [sampleFlagField])
      = .ok (.ptrStruct [sampleFlagField]) := by
  refine ⟨fun values f t ss hsett htyp hlk => ?_,
          fun values f t hsett htyp hlk => ?_,
          fun values f t g hsett htyp hlk hset => ?_,
          fun values f t e hsett htyp hlk hset => ?_,
          fun values f t n x xs g hsett htyp hn hlk hval hset => ?_, by rfl⟩
  · exact bindField_scalar_emptyFirst values f t ss hsett htyp hlk
  · rw [bindField_absent values f hlk, absentFix, if_pos hsett, htyp]
  · rw [bindField_slice_run values f t "" [] hsett htyp hlk, convertSlice_single_empty, hset]
  · rw [bindField_slice_run values f t "" [] hsett htyp hlk, convertSlice_single_empty, hset]
  · rw [bindField_array_run values f t n "" [] hsett htyp hlk]
    have hmin : min n (([""] : List String)).length = 1 := by
      simp
      omega
    simp only [hval, currentArray, hmin]
    rw [setArrayElems_single_empty, hset]

/-- Witness for C10: a bool field bound from `?flag=` stays false; a string
    slice bound from a single empty value becomes `[""]`. -/
theorem empty_first_value_skips_scalar_witness :
    bindField [("flag", ["", "true"])] sampleFlagField = .ok sampleFlagField
  ∧ bindField [("tags", [""])] sampleTagsField
      = .ok { sampleTagsField with val := .slice [.vStr ""] } :=
  ⟨empty_first_value_skips_scalar.1 [("flag", ["", "true"])] sampleFlagField
      .boolT ["true"] rfl rfl rfl,
   empty_first_value_skips_scalar.2.2.1 [("tags", [""])] sampleTagsField
      .stringT (.vStr "") rfl rfl rfl rfl⟩

/-- C7: a slice field builds a new sequence with one converted element per
    supplied value, in order; `tags=a&tags=b&tags=c` binds to `[a, b, c]`
    and `{Tags []string}` bound from `?tags=x&tags=y` yields `["x", "y"]`. -/
theorem slice_binding_ordered :
    (∀ (values : Values) (f : StructField) (t : ScalarType) (v : String)
        (vs : List String) (gvs : List ScalarValue),
      f.settable = true → f.typ = .slice t →
      lookupVals values (tagName f.name f.tags bindTags) = v :: vs →
      List.Forall₂ (fun s g => goLen s ≤ maxFieldLength ∧ setField t s = .ok g)
        (v :: vs) gvs →
      bindField values f = .ok { f with val := .slice gvs })
  ∧ Binder.Query { sampleBinder with rawQuery := "tags=a&tags=b&tags=c" }
      (.ptrStruct [sampleTagsField])
      = .ok (.ptrStruct [{ sampleTagsField with
          val := .slice [.vStr "a", .vStr "b", .vStr "c"] }])
  ∧ Binder.Query { sampleBinder with rawQuery := "tags=x&tags=y" }
      (.ptrStruct [sampleTagsField])
      = .ok (.ptrStruct [{ sampleTagsField with val := .slice [.vStr "x", .vStr "y"] }]) := by
  refine ⟨fun values f t v vs gvs hsett htyp hlk hconv => ?_, by rfl, by rfl⟩
  rw [bindField_slice_run values f t v vs hsett htyp hlk,
    convertSlice_forall2 t f.name (v :: vs) gvs hconv]

/-- Witness for C7: three supplied values bind to the ordered three-element
    sequence. -/
theorem slice_binding_ordered_witness :
    bindField [("tags", ["a", "b", "c"])] sampleTagsField
      = .ok { sampleTagsField with val := .slice [.vStr "a", .vStr "b", .vStr "c"] } :=
  slice_binding_ordered.1 [("tags", ["a", "b", "c"])] sampleTagsField .stringT
    "a" ["b", "c"] [.vStr "a", .vStr "b", .vStr "c"] rfl rfl rfl
    (by refine .cons ⟨by decide, rfl⟩ (.cons ⟨by decide, rfl⟩ (.cons ⟨by decide, rfl⟩ .nil)))

/-- C3: a supplied value longer than 10 000 bytes — as a scalar's first
    value, a slice element, or an array element within the copied range —
    fails the call with the too-long error naming the field, while a scalar
    value of length at most 10 000 never produces that error. -/
theorem field_too_long_rejected :
    (∀ (values : Values) (pre post : List StructField) (f : StructField)
        (pre' : List StructField) (t : ScalarType) (s : String) (ss : List String),
      bindFieldsList values pre = .ok pre' →
      f.settable = true → f.typ = .scalar t →
      lookupVals values (tagName f.name f.tags bindTags) = s :: ss →
      goLen s > maxFieldLength →
      bindValues values (.ptrStruct (pre ++ f :: post)) = .error (tooLongErr f.name))
  ∧ (∀ (values : Values) (f : StructField) (t : ScalarType)
        (vs1 : List String) (s : String) (vs2 : List String),
      f.settable = true → f.typ = .slice t →
      lookupVals values (tagName f.name f.tags bindTags) = vs1 ++ s :: vs2 →
      (∀ v ∈ vs1, goLen v ≤ maxFieldLength ∧ ∃ g, setField t v = .ok g) →
      goLen s > maxFieldLength →
      bindField values f = .error (tooLongErr f.name))
  ∧ (∀ (values : Values) (f : StructField) (t : ScalarType) (n : Nat)
        (cur : List ScalarValue) (vs1 : List String) (s : String) (vs2 : List String),
      f.settable = true → f.typ = .array t n → f.val = .arr cur →
      lookupVals values (tagName f.name f.tags bindTags) = vs1 ++ s :: vs2 →
      (∀ v ∈ vs1, goLen v ≤ maxFieldLength ∧ ∃ g, setField t v = .ok g) →
      goLen s > maxFieldLength → vs1.length < n → vs1.length < cur.length →
      bindField values f = .error (tooLongErr f.name))
  ∧ (∀ (values : Values) (f : StructField) (t : ScalarType) (s : String)
        (ss : List String),
      f.settable = true → f.typ = .scalar t →
      lookupVals values (tagName f.name f.tags bindTags) = s :: ss →
      goLen s ≤ maxFieldLength →
      (∃ f', bindField values f = .ok f')
      ∨ (∃ e, bindField values f = .error (invalidValueErr f.name e))) := by
  refine ⟨fun values pre post f pre' t s ss hpre hsett htyp hlk hlen => ?_,
          fun values f t vs1 s vs2 hsett htyp hlk hok hlen => ?_,
          fun values f t n cur vs1 s vs2 hsett htyp hval hlk hok hlen hn hcur => ?_,
          fun values f t s ss hsett htyp hlk hlen => ?_⟩
  · have hf := bindField_scalar_tooLong values f t s ss hsett htyp hlk hlen
    simp only [bindValues,
      bindFieldsList_append_error values pre post f pre' (tooLongErr f.name) hpre hf]
  · obtain ⟨v, vs', hcons⟩ : ∃ v vs', vs1 ++ s :: vs2 = v :: vs' := by
      cases vs1 <;> exact ⟨_, _, rfl⟩
    rw [hcons] at hlk
    rw [bindField_slice_run values f t v vs' hsett htyp hlk, ← hcons,
      convertSlice_tooLong t f.name vs1 vs2 s hok hlen]
  · obtain ⟨v, vs', hcons⟩ : ∃ v vs', vs1 ++ s :: vs2 = v :: vs' := by
      cases vs1 <;> exact ⟨_, _, rfl⟩
    rw [hcons] at hlk
    rw [bindField_array_run values f t n v vs' hsett htyp hlk, ← hcons]
    rw [setArrayElems_tooLong t f.name (currentArray t n f.val) vs1 vs2 s
      (min n (vs1 ++ s :: vs2).length) hok hlen
      (by simp; omega) (by simp [hval, currentArray]; omega)]
  · by_cases hne : s = ""
    · subst hne
      exact .inl ⟨f, bindField_scalar_emptyFirst values f t ss hsett htyp hlk⟩
    · rw [bindField_scalar_step values f t s ss hsett htyp hlk hne hlen]
      cases hset : setField t s with
      | ok v => exact .inl ⟨{ f with val := .scalar v }, rfl⟩
      | error e => exact .inr ⟨e, rfl⟩

/-- Witness for C3: a 10 001-byte value fails with the too-long error naming
    the field; the 10 000-byte value does not produce that error. -/
theorem field_too_long_rejected_witness :
    bindValues [("name", [String.mk (List.replicate 10001 'a')])]
        (.ptrStruct [sampleNameField])
      = .error (tooLongErr "Name")
  ∧ ((∃ f', bindField [("name", [String.mk (List.replicate 10000 'a')])]
          sampleNameField = .ok f')
      ∨ (∃ e, bindField [("name", [String.mk (List.replicate 10000 'a')])]
          sampleNameField = .error (invalidValueErr "Name" e))) :=
  ⟨field_too_long_rejected.1 [("name", [String.mk (List.replicate 10001 'a')])]
      [] [] sampleNameField [] .stringT (String.mk (List.replicate 10001 'a')) []
      rfl rfl rfl rfl (by rw [goLen_replicate]; decide),
   field_too_long_rejected.2.2.2 [("name", [String.mk (List.replicate 10000 'a')])]
      sampleNameField .stringT (String.mk (List.replicate 10000 'a')) []
      rfl rfl rfl (by rw [goLen_replicate]; decide)⟩

/-- A parsed multipart body with one 50 MiB upload under `avatar`. -/
def mpExactLimit : Except String MultipartData :=
  .ok ⟨[], [("avatar", [⟨"pic.png", 52428800⟩])]⟩

/-- A parsed multipart body with one 50 MiB + 1 byte upload under `avatar`. -/
def mpOverLimit : Except String MultipartData :=
  .ok ⟨[], [("avatar", [⟨"pic.png", 52428801⟩])]⟩

/-- C6: an uploaded file larger than 50 MiB under a settable field's tag
    fails the multipart call with the file-too-large error naming the file;
    with all files within the limit a `*multipart.FileHeader` field receives
    the first header under its key and a `[]*multipart.FileHeader` field
    receives all of them; a file of exactly 50 MiB passes. -/
theorem multipart_file_size_limit :
    (∀ (files : FileMap) (f : StructField) (hs1 : List FileHeader)
        (h0 : FileHeader) (hs2 : List FileHeader),
      f.settable = true →
      lookupFiles files (tagName f.name f.tags fileTags) = hs1 ++ h0 :: hs2 →
      (∀ g ∈ hs1, g.size ≤ maxFileSize) → h0.size > maxFileSize →
      bindFilesField files f = .error ⟨400, "file too large: " ++ h0.filename⟩)
  ∧ (∀ (b : Binder) (m : MultipartData) (dst : Dst) (mm : Int)
        (pre post : List StructField) (f : StructField) (pre' : List StructField)
        (hs1 : List FileHeader) (h0 : FileHeader) (hs2 : List FileHeader),
      b.multipartData = .ok m →
      bindValues m.value dst = .ok (.ptrStruct (pre ++ f :: post)) →
      bindFilesList m.file pre = .ok pre' →
      f.settable = true →
      lookupFiles m.file (tagName f.name f.tags fileTags) = hs1 ++ h0 :: hs2 →
      (∀ g ∈ hs1, g.size ≤ maxFileSize) → h0.size > maxFileSize →
      b.MultipartForm dst mm = .error ⟨400, "file too large: " ++ h0.filename⟩)
  ∧ (∀ (files : FileMap) (f : StructField) (h : FileHeader) (t : List FileHeader),
      f.settable = true → f.typ = .file →
      lookupFiles files (tagName f.name f.tags fileTags) = h :: t →
      (∀ g ∈ h :: t, g.size ≤ maxFileSize) →
      bindFilesField files f = .ok { f with val := .file (some h) })
  ∧ (∀ (files : FileMap) (f : StructField) (h : FileHeader) (t : List FileHeader),
      f.settable = true → f.typ = .files →
      lookupFiles files (tagName f.name f.tags fileTags) = h :: t →
      (∀ g ∈ h :: t, g.size ≤ maxFileSize) →
      bindFilesField files f = .ok { f with val := .files (h :: t) })
  ∧ ({ sampleBinder with multipartData := mpExactLimit }).MultipartForm
        (.ptrStruct [sampleAvatarField]) 0
      = .ok (.ptrStruct [{ sampleAvatarField with
          val := .file (some ⟨"pic.png", 52428800⟩) }])
  ∧ ({ sampleBinder with multipartData := mpOverLimit }).MultipartForm
        (.ptrStruct [sampleAvatarField]) 0
      = .error ⟨400, "file too large: pic.png"⟩ := by
  refine ⟨fun files f hs1 h0 hs2 hsett hlk hsz h0sz =>
            bindFilesField_tooLarge files f hs1 h0 hs2 hsett hlk hsz h0sz,
          fun b m dst mm pre post f pre' hs1 h0 hs2 hmp hbv hpre hsett hlk hsz h0sz => ?_,
          fun files f h t hsett htyp hlk hsz => ?_,
          fun files f h t hsett htyp hlk hsz => ?_, by rfl, by rfl⟩
  · have hf := bindFilesField_tooLarge m.file f hs1 h0 hs2 hsett hlk hsz h0sz
    have hfl := bindFilesList_append_error m.file pre post f pre' _ hpre hf
    simp only [Binder.MultipartForm, hmp, hbv, bindFiles, hfl]
  · rw [bindFilesField_set files f h t hsett hlk hsz, htyp]
  · rw [bindFilesField_set files f h t hsett hlk hsz, htyp]

/-- Witness for C6: one oversize upload fails naming the file; two in-limit
    uploads fill a single-file field with the first and a slice field with
    both. -/
theorem multipart_file_size_limit_witness :
    bindFilesField [("avatar", [⟨"big.bin", 52428801⟩])] sampleAvatarField
      = .error ⟨400, "file too large: big.bin"⟩
  ∧ bindFilesField [("avatar", [⟨"a.png", 100⟩, ⟨"b.png", 200⟩])] sampleAvatarField
      = .ok { sampleAvatarField with val := .file (some ⟨"a.png", 100⟩) }
  ∧ bindFilesField [("docs", [⟨"a.pdf", 1⟩, ⟨"b.pdf", 2⟩])]
        { name := "Docs", tags := [("form", "docs")], settable := true,
          typ := .files, val := .files [] }
      = .ok { name := "Docs", tags := [("form", "docs")], settable := true,
              typ := .files, val := .files [⟨"a.pdf", 1⟩, ⟨"b.pdf", 2⟩] } :=
  ⟨multipart_file_size_limit.1 [("avatar", [⟨"big.bin", 52428801⟩])] sampleAvatarField
      [] ⟨"big.bin", 52428801⟩ [] rfl rfl (by intro g hg; simp at hg) (by decide),
   multipart_file_size_limit.2.2.1 [("avatar", [⟨"a.png", 100⟩, ⟨"b.png", 200⟩])]
      sampleAvatarField ⟨"a.png", 100⟩ [⟨"b.png", 200⟩] rfl rfl rfl
      (by intro g hg; fin_cases hg <;> decide),
   multipart_file_size_limit.2.2.2.1 [("docs", [⟨"a.pdf", 1⟩, ⟨"b.pdf", 2⟩])]
      { name := "Docs", tags := [("form", "docs")], settable := true,
        typ := .files, val := .files [] }
      ⟨"a.pdf", 1⟩ [⟨"b.pdf", 2⟩] rfl rfl rfl
      (by intro g hg; fin_cases hg <;> decide)⟩

/-! ## Strict-JSON lemmas -/

/-- Whether some field of the destination receives JSON object key `k`. -/
def hasJSONKey (fields : List StructField) (k : String) : Bool :=
  fields.any (fun f => jsonMatch f k)

/-- A successful JSON assignment changes only the field's value, never its
    name, tags or settability. -/
theorem setFromJSON_shape (f f' : StructField) (v : JSONField)
    (h : setFromJSON f v = .ok f') :
    f'.name = f.name ∧ f'.tags = f.tags ∧ f'.settable = f.settable := by
  obtain ⟨name, tags, settable, typ, val⟩ := f
  simp only [setFromJSON] at h
  repeat' split at h
  all_goals simp_all
  all_goals (obtain ⟨rfl⟩ := h; exact ⟨rfl, rfl, rfl⟩)

/-- `jsonMatch` depends only on a field's name, tags and settability. -/
theorem jsonMatch_congr (f f' : StructField)
    (hn : f'.name = f.name) (ht : f'.tags = f.tags) (hs : f'.settable = f.settable)
    (k : String) : jsonMatch f' k = jsonMatch f k := by
  simp [jsonMatch, jsonFieldName, hn, ht, hs]

/-- No assignment target exists exactly when no field matches the key. -/
theorem jsonAssign_none_iff (k : String) (v : JSONField) (fields : List StructField) :
    jsonAssign k v fields = none ↔ hasJSONKey fields k = false := by
  induction fields with
  | nil => simp [jsonAssign, hasJSONKey]
  | cons f fs ih =>
    simp only [jsonAssign, hasJSONKey, List.any_cons] at ih ⊢
    by_cases hm : jsonMatch f k
    · simp [hm]
    · simp [hm, ih]

/-- A successful assignment leaves every key's matchability unchanged. -/
theorem jsonAssign_ok_keys (k : String) (v : JSONField)
    (fields fields' : List StructField)
    (h : jsonAssign k v fields = some (.ok fields')) (k' : String) :
    hasJSONKey fields' k' = hasJSONKey fields k' := by
  induction fields generalizing fields' with
  | nil => simp [jsonAssign] at h
  | cons f fs ih =>
    simp only [jsonAssign] at h
    by_cases hm : jsonMatch f k
    · rw [if_pos hm] at h
      cases hs : setFromJSON f v with
      | error e => rw [hs] at h; simp at h
      | ok f' =>
        rw [hs] at h
        simp only [Option.some_inj] at h
        obtain ⟨rfl⟩ : f' :: fs = fields' := by
          cases h
          rfl
        obtain ⟨hn, ht, hset⟩ := setFromJSON_shape _ f' v hs
        simp [hasJSONKey, List.any_cons, jsonMatch_congr _ f' hn ht hset k']
    · rw [if_neg hm] at h
      cases ha : jsonAssign k v fs with
      | none => rw [ha] at h; simp at h
      | some r =>
        rw [ha] at h
        cases r with
        | error e => simp at h
        | ok fs' =>
          simp at h
          subst h
          have hh := ih fs' ha
          simp only [hasJSONKey] at hh
          simp [hasJSONKey, List.any_cons, hh]

/-- When every key of the object has a matching field, strict decoding
    agrees with non-strict decoding. -/
theorem decodeJSONObject_strict_of_known (kvs : List (String × JSONField))
    (fields flds : List StructField)
    (hlax : decodeJSONObject false kvs fields = .ok flds)
    (hknown : ∀ p ∈ kvs, hasJSONKey fields p.1 = true) :
    decodeJSONObject true kvs fields = .ok flds := by
  induction kvs generalizing fields with
  | nil => simpa [decodeJSONObject] using hlax
  | cons p kvs ih =>
    obtain ⟨k, v⟩ := p
    simp only [decodeJSONObject] at hlax ⊢
    cases ha : jsonAssign k v fields with
    | none =>
      have hnone := (jsonAssign_none_iff k v fields).mp ha
      have hk := hknown (k, v) (by simp)
      simp at hk
      rw [hnone] at hk
      cases hk
    | some r =>
      rw [ha] at hlax
      cases r with
      | error e => simp at hlax
      | ok fields' =>
        exact ih fields' hlax
          (fun q hq => by
            rw [jsonAssign_ok_keys k v fields fields' ha q.1]
            exact hknown q (by simp [hq]))

/-- When the object carries a key with no matching field and non-strict
    decoding succeeds, strict decoding fails with an unknown-field error. -/
theorem decodeJSONObject_strict_unknown (kvs : List (String × JSONField))
    (fields flds : List StructField)
    (hlax : decodeJSONObject false kvs fields = .ok flds)
    (hunk : ∃ p ∈ kvs, hasJSONKey fields p.1 = false) :
    ∃ k0, decodeJSONObject true kvs fields = .error (unknownFieldErr k0) := by
  induction kvs generalizing fields with
  | nil => simp at hunk
  | cons p kvs ih =>
    obtain ⟨k, v⟩ := p
    simp only [decodeJSONObject] at hlax ⊢
    cases ha : jsonAssign k v fields with
    | none => exact ⟨k, by simp⟩
    | some r =>
      rw [ha] at hlax
      cases r with
      | error e => simp at hlax
      | ok fields' =>
        apply ih fields' hlax
        obtain ⟨q, hqmem, hq⟩ := hunk
        simp only [List.mem_cons] at hqmem
        cases hqmem with
        | inl hq0 =>
          subst hq0
          simp only at hq
          rw [(jsonAssign_none_iff k v fields).mpr hq] at ha
          cases ha
        | inr hq0 =>
          exact ⟨q, hq0, by rw [jsonAssign_ok_keys k v fields fields' ha q.1]; exact hq⟩

/-- C1: strict JSON binding is configurable and off by default
    (`New` leaves it false, a supplied config copies `StrictJSON`); with
    strict mode on, a body whose top-level object carries a key unknown to
    the destination, or that has further values trailing the first, fails
    with a 400 `invalid JSON:` error wrapping the parse failure, while the
    same body decodes without error with strict mode off. -/
theorem strict_json_mode (b : Binder) (fields flds : List StructField)
    (kvs : List (String × JSONField)) (rest : List JSONTop)
    (hbody : b.jsonBody = some (.obj kvs :: rest))
    (hlax : decodeJSONObject false kvs fields = .ok flds)
    (hbad : (∃ p ∈ kvs, hasJSONKey fields p.1 = false) ∨ rest ≠ []) :
    ((∃ e, Binder.JSON { b with strictJSON := true } (.ptrStruct fields)
        = .error ⟨400, "invalid JSON: " ++ e⟩)
     ∧ Binder.JSON { b with strictJSON := false } (.ptrStruct fields)
        = .ok (.ptrStruct flds))
    ∧ (newApp []).strictJSON = false
    ∧ (∀ cfg : AppConfig, (newApp [cfg]).strictJSON = cfg.strictJSON) := by
  refine ⟨⟨?_, ?_⟩, rfl, fun cfg => rfl⟩
  · by_cases hunk : ∃ p ∈ kvs, hasJSONKey fields p.1 = false
    · obtain ⟨k0, hk0⟩ := decodeJSONObject_strict_unknown kvs fields flds hlax hunk
      refine ⟨unknownFieldErr k0, ?_⟩
      simp only [Binder.JSON, hbody, jsonDecode, hk0]
    · have hknown : ∀ p ∈ kvs, hasJSONKey fields p.1 = true := by
        intro p hp
        rcases Bool.eq_false_or_eq_true (hasJSONKey fields p.1) with h | h
        · exact h
        · exact absurd ⟨p, hp, h⟩ hunk
      have hst := decodeJSONObject_strict_of_known kvs fields flds hlax hknown
      have hrest : rest ≠ [] := hbad.resolve_left hunk
      refine ⟨"trailing data after JSON value", ?_⟩
      obtain ⟨r, rs, rfl⟩ : ∃ r rs, rest = r :: rs := by
        cases rest with
        | nil => exact absurd rfl hrest
        | cons r rs => exact ⟨r, rs, rfl⟩
      simp only [Binder.JSON, hbody, jsonDecode, hst]
      rfl
  · simp only [Binder.JSON, hbody, jsonDecode, hlax]
    rfl

/-- The top-level JSON object `name: John, age: 25, extra: x`, whose third
    key matches no destination field. -/
def unknownKeyObject : List (String × JSONField) :=
  [("name", .scalar (.jStr "John")), ("age", .scalar (.jNum 25)),
   ("extra", .scalar (.jStr "x"))]

/-- A request carrying `unknownKeyObject` as its JSON body. -/
def unknownKeyBinder : Binder :=
  { sampleBinder with jsonBody := some [JSONTop.obj unknownKeyObject] }

/-- Witness for C1: the `extra` key is rejected under strict mode and
    ignored otherwise; strict mode defaults to off. -/
theorem strict_json_mode_witness :
    ((∃ e, Binder.JSON { unknownKeyBinder with strictJSON := true }
        (.ptrStruct [sampleNameField, sampleAgeField])
        = .error ⟨400, "invalid JSON: " ++ e⟩)
     ∧ Binder.JSON { unknownKeyBinder with strictJSON := false }
        (.ptrStruct [sampleNameField, sampleAgeField])
        = .ok (.ptrStruct [{ sampleNameField with val := .scalar (.vStr "John") },
                           { sampleAgeField with val := .scalar (.vInt 25) }]))
    ∧ (newApp []).strictJSON = false
    ∧ (∀ cfg : AppConfig, (newApp [cfg]).strictJSON = cfg.strictJSON) :=
  strict_json_mode unknownKeyBinder [sampleNameField, sampleAgeField]
    [{ sampleNameField with val := .scalar (.vStr "John") },
     { sampleAgeField with val := .scalar (.vInt 25) }]
    unknownKeyObject [] rfl rfl
    (.inl ⟨("extra", .scalar (.jStr "x")), by decide, by rfl⟩)

end Owl
